import Mathlib

/-!
Verification of the semantic / hierarchical skill-selection and dispatch engine
of the agents repository.

The development shallowly embeds the notebook code:

* Real-valued section (namespace VecNorm): the L2-normalization data flow of the
  index-building cells and of the query preparation inside the select functions.
  Vectors are lists of reals; numpy arrays are modelled by their value sequences,
  with copies (np.array) explicit, so that the in-place faiss.normalize_L2 acting on
  a temporary copy versus on the buffer later added to the index is visible.

* Rational-valued section (namespace Retrieval): the retrieval pipeline -- the
  faiss IndexFlatL2 nearest-neighbor search as used by the notebooks, flat
  select_tool, hierarchical select_group / select_tool with the tool_indices
  construction, argument binding (determine_parameters), the flat dispatch driver,
  the model-native tool-call loop, and the command-style calculator dispatch.
  Scalars are integers standing in for floats (the layer uses only ring
  operations and order comparisons, so the carrier is immaterial; the integer
  carrier keeps every definition executable and every concrete run decidable).  The external embedding provider is
  a parameter (a function from text to vector); since the rationals cannot express
  the irrational scaling of the in-place query normalization, the retrieval
  section folds that normalization into the abstract embedding parameter, and the
  normalization itself is verified exactly in the real-valued section.
-/

namespace VecNorm

/-- A row vector of floats, idealized with real entries. -/
abbrev RVec := List ℝ

/-- Squared L2 norm: the sum of the squares of the entries. -/
def normSq (v : RVec) : ℝ := (v.map (fun x => x * x)).sum

/-- Model of faiss.normalize_L2 on one row: faiss fvec_renorm_L2 computes the squared
norm and, when it is positive, scales the row by the inverse square root; a zero row
is left unchanged. -/
noncomputable def normalizeL2 (v : RVec) : RVec :=
  if 0 < normSq v then v.map (fun x => x / Real.sqrt (normSq v)) else v

/-- Model of faiss.normalize_L2 applied to a 2-D array: every row is renormalized in
place; the value of this definition is the content of the mutated buffer. -/
noncomputable def normalize_L2_rows (a : List RVec) : List RVec := a.map normalizeL2

/-- Model of np.array(lst).astype(float32): a fresh buffer holding the same values;
mutating the result never affects the source list. -/
def np_array (l : List RVec) : List RVec := l

/-- Cell 36 of sementic_skill_selection.ipynb:
faiss.normalize_L2(np.array(tool_embeddings).astype(float32)).  np.array copies the
Python list into a temporary buffer and normalize_L2 mutates only that temporary;
this definition is the (discarded) temporary, and tool_embeddings is unchanged. -/
noncomputable def flatCell36Temp (tool_embeddings : List RVec) : List RVec :=
  normalize_L2_rows (np_array tool_embeddings)

/-- Cell 37 of sementic_skill_selection.ipynb:
tool_embeddings_np = np.array(tool_embeddings).astype(float32); index.add(tool_embeddings_np).
The buffer added to the flat index is a fresh copy of the raw embeddings, created after
cell 36, so it is not normalized. -/
def flatStoredVectors (tool_embeddings : List RVec) : List RVec :=
  np_array tool_embeddings

/-- Group-index build of hierarchical_selection.ipynb:
group_embeddings_np = np.array(group_embeddings).astype(float32);
faiss.normalize_L2(group_embeddings_np); group_index.add(group_embeddings_np).
Here the very buffer that was normalized in place is added. -/
noncomputable def groupStoredVectors (group_embeddings : List RVec) : List RVec :=
  normalize_L2_rows (np_array group_embeddings)

/-- Per-group tool-index build of hierarchical_selection.ipynb:
tool_embeddings_np = np.array(tool_embeddings).astype(float32);
faiss.normalize_L2(tool_embeddings_np); tool_index.add(tool_embeddings_np). -/
noncomputable def toolStoredVectors (tool_embeddings : List RVec) : List RVec :=
  normalize_L2_rows (np_array tool_embeddings)

/-- Query preparation shared by select_tool (flat), select_group and select_tool
(hierarchical): query_embedding = embeddings.embed(query) as a 1-D array;
faiss.normalize_L2(query_embedding.reshape(1, -1)).  reshape of a contiguous 1-D
array returns a view, so the in-place normalization does update query_embedding and
the subsequent index.search uses the normalized vector. -/
noncomputable def preparedQuery (embed : String → RVec) (query : String) : RVec :=
  normalizeL2 (embed query)

theorem normSq_nonneg (v : RVec) : 0 ≤ normSq v := by
  induction v with
  | nil => simp [normSq]
  | cons x v ih =>
      have hx : 0 ≤ x * x := mul_self_nonneg x
      simpa [normSq] using add_nonneg hx (by simpa [normSq] using ih)

theorem normSq_cons (x : ℝ) (v : RVec) : normSq (x :: v) = x * x + normSq v := by
  simp [normSq]

theorem normSq_map_div (v : RVec) (c : ℝ) :
    normSq (v.map (fun x => x / c)) = normSq v / (c * c) := by
  induction v with
  | nil => simp [normSq]
  | cons x v ih =>
      have hx : x / c * (x / c) = x * x / (c * c) := by
        rw [div_mul_div_comm]
      simp only [List.map_cons, normSq_cons, ih, hx]
      ring

/-- Renormalizing a row of positive squared norm produces a unit vector. -/
theorem normSq_normalizeL2 (v : RVec) (h : 0 < normSq v) :
    normSq (normalizeL2 v) = 1 := by
  rw [normalizeL2, if_pos h, normSq_map_div]
  rw [Real.mul_self_sqrt (normSq_nonneg v)]
  exact div_self (ne_of_gt h)

/-- Every row stored in the hierarchical group index (and likewise in each per-group
tool index) whose raw embedding has positive squared norm is stored normalized. -/
theorem groupStoredVectors_normalized (embs : List RVec) (v : RVec)
    (hv : v ∈ embs) (hpos : 0 < normSq v) :
    normalizeL2 v ∈ groupStoredVectors embs ∧ normSq (normalizeL2 v) = 1 := by
  refine ⟨?_, normSq_normalizeL2 v hpos⟩
  exact List.mem_map_of_mem normalizeL2 hv

/-- The query vector handed to every faiss search is normalized whenever the raw
query embedding has positive squared norm. -/
theorem preparedQuery_normalized (embed : String → RVec) (q : String)
    (h : 0 < normSq (embed q)) : normSq (preparedQuery embed q) = 1 :=
  normSq_normalizeL2 (embed q) h

/-- C1: the spec asserts that every vector stored in a VectorIndex and every query
vector is L2-normalized in both flat and hierarchical mode.  The flat build violates
this: cell 36 normalizes a temporary copy produced by np.array and discards it, and
cell 37 adds a fresh unnormalized copy of tool_embeddings to the index.  Evaluated at
the raw embedding (3, 4): the stored row stays (3, 4), its squared norm is 25, not 1,
while actually renormalizing that row would give squared norm 1 (as the hierarchical
build does). -/
theorem C1_flat_stored_vector_not_normalized :
    flatStoredVectors [[3, 4]] = [[3, 4]] ∧
    normSq [(3 : ℝ), 4] = 25 ∧
    normSq [(3 : ℝ), 4] ≠ 1 ∧
    normSq (normalizeL2 [(3 : ℝ), 4]) = 1 := by
  refine ⟨rfl, ?_, ?_, ?_⟩
  · simp [normSq]; norm_num
  · simp only [normSq, List.map_cons, List.map_nil, List.sum_cons, List.sum_nil]
    norm_num
  · refine normSq_normalizeL2 _ ?_
    simp only [normSq, List.map_cons, List.map_nil, List.sum_cons, List.sum_nil]
    norm_num

end VecNorm

namespace Retrieval

/-- Exceptions the embedded Python code can raise, at the granularity the notebooks
distinguish them.  assertionError stands for the failure of a faiss search called
with k ≤ 0: depending on the faiss build it is the AssertionError of the Python
wrapper assert k > 0, the C++ check FAISS_THROW_IF_NOT(k > 0), or the ValueError of
the np.empty((n, k)) result allocation -- in every case the call raises and returns
nothing, which is all the claims here depend on. -/
inductive PyExc where
  | jsonDecodeError : PyExc
  | keyError (key : String) : PyExc
  | valueError (msg : String) : PyExc
  | indexError : PyExc
  | assertionError : PyExc
deriving DecidableEq

/-- Python list indexing: nonnegative positions index from the front, negative
positions index from the back, anything out of range raises IndexError. -/
def pyIndex {α : Type} (l : List α) (i : ℤ) : Except PyExc α :=
  if 0 ≤ i then
    match l.get? i.toNat with
    | some a => Except.ok a
    | Option.none => Except.error PyExc.indexError
  else
    if (-i).toNat ≤ l.length then
      match l.get? (l.length - (-i).toNat) with
      | some a => Except.ok a
      | Option.none => Except.error PyExc.indexError
    else Except.error PyExc.indexError

/-- A Python list comprehension [l[i] for i in ids]: the first failing index aborts
with its exception. -/
def pyMapIndexE {α : Type} (l : List α) : List ℤ → Except PyExc (List α)
  | [] => Except.ok []
  | i :: ids =>
      match pyIndex l i with
      | Except.error e => Except.error e
      | Except.ok a =>
          match pyMapIndexE l ids with
          | Except.error e => Except.error e
          | Except.ok as_ => Except.ok (a :: as_)

/-- A guarded comprehension [l[i] for i in ids if i < len(l)]: positions failing the
guard are skipped, positions passing it are indexed (negative ones from the back). -/
def pyGuardIndexE {α : Type} (l : List α) : List ℤ → Except PyExc (List α)
  | [] => Except.ok []
  | i :: ids =>
      if i < (l.length : ℤ) then
        match pyIndex l i with
        | Except.error e => Except.error e
        | Except.ok a =>
            match pyGuardIndexE l ids with
            | Except.error e => Except.error e
            | Except.ok as_ => Except.ok (a :: as_)
      else pyGuardIndexE l ids

/-- A stored or query row.  The retrieval layer uses only ring operations
(subtraction, multiplication, addition) and order comparisons on scalars, so any
linearly ordered commutative-ring carrier models the float entries; the integer
carrier is used because it keeps every concrete run kernel-decidable (rational
addition does not reduce in the kernel).  The one place genuine real arithmetic
happens -- L2 normalization -- is verified exactly in the real-valued section. -/
abbrev QVec := List ℤ

/-- Squared L2 distance between a query row and a stored row; faiss IndexFlatL2
reports exactly these squared distances. -/
def distSq (u v : QVec) : ℤ := ((List.zip u v).map (fun p => (p.1 - p.2) * (p.1 - p.2))).sum

/-- A faiss flat L2 index: its fixed dimension and the stored rows in insertion
order; positions are row numbers. -/
structure IndexFlatL2 where
  dim : ℕ
  xb : List QVec
deriving DecidableEq

/-- index.add appends rows in the given order. -/
def IndexFlatL2.add (ix : IndexFlatL2) (vs : List QVec) : IndexFlatL2 :=
  { ix with xb := ix.xb ++ vs }

/-- Candidate ordering of the exact flat search: squared distance ascending, ties by
insertion position ascending. -/
abbrev searchOrder (a b : ℕ × ℤ) : Prop := a.2 < b.2 ∨ (a.2 = b.2 ∧ a.1 ≤ b.1)

instance : IsTotal (ℕ × ℤ) searchOrder := by
  constructor
  intro a b
  rcases lt_trichotomy a.2 b.2 with h | h | h
  · exact Or.inl (Or.inl h)
  · rcases Nat.le_total a.1 b.1 with h2 | h2
    · exact Or.inl (Or.inr ⟨h, h2⟩)
    · exact Or.inr (Or.inr ⟨h.symm, h2⟩)
  · exact Or.inr (Or.inl h)

instance : IsTrans (ℕ × ℤ) searchOrder := by
  constructor
  intro a b c hab hbc
  rcases hab with h1 | ⟨he1, hl1⟩ <;> rcases hbc with h2 | ⟨he2, hl2⟩
  · exact Or.inl (h1.trans h2)
  · exact Or.inl (he2 ▸ h1)
  · exact Or.inl (he1 ▸ h2)
  · exact Or.inr ⟨he1.trans he2, hl1.trans hl2⟩

/-- Sentinel distance on padding rows (FLT_MAX, the faiss heap initialization). -/
def padDist : ℤ := 340282346638528859811704183484516925440

/-- Label faiss reports on padding rows when the index holds fewer than k entries. -/
def padId : ℤ := -1

/-- The genuine part of one faiss IndexFlatL2 search: every stored row paired with
its squared distance to the query, ordered by searchOrder, the first k of them. -/
def IndexFlatL2.searchCore (ix : IndexFlatL2) (q : QVec) (k : ℤ) : List (ℤ × ℤ) :=
  ((List.insertionSort searchOrder (ix.xb.map (distSq q)).enum).take k.toNat).map
    (fun p => ((p.1 : ℤ), p.2))

/-- Result of a successful faiss IndexFlatL2 search for a single query row; the
k > 0 guard of the Python wrapper around it is IndexFlatL2.searchPy below, which is
what the notebook code reaches, so this computation is only ever invoked with
k ≥ 1.  The reported row of (id, squared distance) pairs has exactly k entries; the
first min(k, ntotal) are the genuine neighbors in order, and when the index holds
fewer than k rows the remainder keeps the heap initialization values: id -1 and the
sentinel distance. -/
def IndexFlatL2.search (ix : IndexFlatL2) (q : QVec) (k : ℤ) : List (ℤ × ℤ) :=
  ix.searchCore q k ++ List.replicate (k.toNat - ix.xb.length) (padId, padDist)

/-- Model of one faiss search call as the notebooks make it: the faiss Python
wrapper (replacement_search) asserts k > 0 before running the query, so a call with
k ≤ 0 raises and returns nothing (see the PyExc.assertionError comment for the
version-dependent exception class); for k ≥ 1 the call returns the padded result
row of IndexFlatL2.search. -/
def IndexFlatL2.searchPy (ix : IndexFlatL2) (q : QVec) (k : ℤ) :
    Except PyExc (List (ℤ × ℤ)) :=
  if 0 < k then Except.ok (ix.search q k) else Except.error PyExc.assertionError

theorem searchCore_length (ix : IndexFlatL2) (q : QVec) (k : ℤ) :
    (ix.searchCore q k).length = min k.toNat ix.xb.length := by
  simp [IndexFlatL2.searchCore, List.length_insertionSort, List.enum_length]

theorem searchCore_pairwise (ix : IndexFlatL2) (q : QVec) (k : ℤ) :
    (ix.searchCore q k).Pairwise (fun a b => a.2 ≤ b.2) := by
  have hs : List.Sorted searchOrder
      (List.insertionSort searchOrder (ix.xb.map (distSq q)).enum) :=
    List.sorted_insertionSort searchOrder _
  have ht : (List.Pairwise searchOrder
      ((List.insertionSort searchOrder (ix.xb.map (distSq q)).enum).take k.toNat)) :=
    List.Pairwise.sublist (List.take_sublist _ _) hs
  rw [IndexFlatL2.searchCore, List.pairwise_map]
  refine ht.imp ?_
  intro a b hab
  rcases hab with h | ⟨he, _⟩
  · exact le_of_lt h
  · exact le_of_eq he

theorem searchCore_nodup_fst (ix : IndexFlatL2) (q : QVec) (k : ℤ) :
    ((ix.searchCore q k).map Prod.fst).Nodup := by
  have hperm : (List.insertionSort searchOrder (ix.xb.map (distSq q)).enum).Perm
      (ix.xb.map (distSq q)).enum := List.perm_insertionSort searchOrder _
  have hnodupS : ((List.insertionSort searchOrder (ix.xb.map (distSq q)).enum).map
      Prod.fst).Nodup := by
    rw [(hperm.map Prod.fst).nodup_iff]
    exact List.nodup_enum_map_fst _
  have hsub : (((List.insertionSort searchOrder
      (ix.xb.map (distSq q)).enum).take k.toNat).map Prod.fst).Sublist
      ((List.insertionSort searchOrder (ix.xb.map (distSq q)).enum).map Prod.fst) :=
    List.Sublist.map Prod.fst (List.take_sublist _ _)
  have hnodupT := hnodupS.sublist hsub
  rw [IndexFlatL2.searchCore, List.map_map]
  have : (Prod.fst ∘ fun p : ℕ × ℤ => ((p.1 : ℤ), p.2)) =
      (fun n : ℕ => (n : ℤ)) ∘ Prod.fst := rfl
  rw [this, ← List.map_map]
  exact hnodupT.map (fun a b h => Int.ofNat_inj.mp h)

theorem searchCore_mem (ix : IndexFlatL2) (q : QVec) (k : ℤ) (p : ℤ × ℤ)
    (hp : p ∈ ix.searchCore q k) :
    ∃ i : ℕ, p.1 = (i : ℤ) ∧ ∃ h : i < ix.xb.length,
      p.2 = distSq q (ix.xb.get ⟨i, h⟩) := by
  rw [IndexFlatL2.searchCore] at hp
  rcases List.mem_map.mp hp with ⟨p0, hp0, rfl⟩
  have hpS := List.mem_of_mem_take hp0
  have hpE : p0 ∈ (ix.xb.map (distSq q)).enum :=
    (List.perm_insertionSort searchOrder _).mem_iff.mp hpS
  have hget := List.mem_enum_iff_getElem?.mp hpE
  rcases List.getElem?_eq_some.mp hget with ⟨hlt, hval⟩
  rw [List.getElem_map] at hval
  have hlt2 : p0.1 < ix.xb.length := by simpa using hlt
  refine ⟨p0.1, rfl, hlt2, ?_⟩
  simp only [← hval]
  rfl

theorem search_mem_split (ix : IndexFlatL2) (q : QVec) (k : ℤ) (p : ℤ × ℤ)
    (hp : p ∈ ix.search q k) : p ∈ ix.searchCore q k ∨ p = (padId, padDist) := by
  rw [IndexFlatL2.search] at hp
  rcases List.mem_append.mp hp with h | h
  · exact Or.inl h
  · exact Or.inr (List.eq_of_mem_replicate h)

theorem search_ids (ix : IndexFlatL2) (q : QVec) (k : ℤ) (p : ℤ × ℤ)
    (hp : p ∈ ix.search q k) :
    p.1 = padId ∨ (0 ≤ p.1 ∧ p.1 < (ix.xb.length : ℤ)) := by
  rcases search_mem_split ix q k p hp with h | h
  · rcases searchCore_mem ix q k p h with ⟨i, hi, hlt, _⟩
    right
    constructor
    · rw [hi]; exact Int.ofNat_nonneg i
    · rw [hi]; exact_mod_cast hlt
  · left; rw [h]

/-- index_to_tool of sementic_skill_selection.ipynb: faiss position to tool name. -/
def index_to_tool : List (ℤ × String) :=
  [(0, "query_wolfram_alpha"), (1, "trigger_zapier_webhook"), (2, "send_slack_message")]

/-- select_tool of sementic_skill_selection.ipynb, with the faiss index and the
position table passed explicitly in place of the notebook globals and the external
embedding collaborator as a parameter (per the file header, the parameter already
yields the prepared query row; the in-place normalization of the raw embedding is
verified in VecNorm.preparedQuery).  The first component records the embedding calls
the body makes: embeddings.embed_query(query) is evaluated unconditionally, before
the search and before any inspection of top_k.  The search itself goes through the
wrapper searchPy, so a top_k ≤ 0 raises there, after the embedding call; on success
the list comprehension keeps a position only if it is a key of index_to_tool, which
silently drops the faiss padding id -1. -/
def select_tool (embed : String → QVec) (ix : IndexFlatL2) (i2t : List (ℤ × String))
    (query : String) (top_k : ℤ) : List String × Except PyExc (List String) :=
  let query_embedding := embed query
  ([query],
    match ix.searchPy query_embedding top_k with
    | Except.error e => Except.error e
    | Except.ok rows => Except.ok (rows.filterMap (fun p => i2t.lookup p.1)))

/-- select_group of hierarchical_selection.ipynb: embed the query (recorded in the
first component), search the group index through the wrapper (a top_k ≤ 0 raises
there), and translate every returned position through Python indexing into
group_names, with no guard: the faiss padding id -1 resolves, by negative indexing,
to the last group name. -/
def select_group (embed : String → QVec) (group_index : IndexFlatL2)
    (group_names : List String) (query : String) (top_k : ℤ) :
    List String × Except PyExc (List String) :=
  let query_embedding := embed query
  ([query],
    match group_index.searchPy query_embedding top_k with
    | Except.error e => Except.error e
    | Except.ok rows => pyMapIndexE group_names (rows.map Prod.fst))

/-- A langchain @tool function: its name and its docstring. -/
structure ToolFn where
  name : String
  doc : String
deriving DecidableEq

/-- A tool group of hierarchical_selection.ipynb: its description and member tools. -/
structure GroupInfo where
  description : String
  tools : List ToolFn
deriving DecidableEq

/-- One entry of tool_indices: the per-group faiss index, the parallel list of member
functions, and the stored embedding rows. -/
structure ToolIdxInfo where
  index : IndexFlatL2
  functions : List ToolFn
  embeddings : List QVec
deriving DecidableEq

/-- The description used for a tool: tool_func.__doc__.strip().split("\n")[0], the
first line of the (stripped) docstring. -/
def toolDescription (t : ToolFn) : String := ((t.doc.trim).splitOn "\n").headD ""

/-- tool_indices construction of hierarchical_selection.ipynb: for each group in
order, collect the member descriptions; only when that list is nonempty, embed them
(the parameter stands for embeddings.embed_texts composed with the in-place
normalization verified in VecNorm), build a dedicated flat index over them, and
record it together with the member functions.  A group with no tools is silently
omitted from tool_indices. -/
def buildToolIndices (embedText : String → QVec)
    (groups : List (String × GroupInfo)) : List (String × ToolIdxInfo) :=
  groups.filterMap (fun g =>
    let tool_descriptions := (g.2.tools).map toolDescription
    if tool_descriptions.isEmpty then Option.none
    else
      let tool_embeddings := tool_descriptions.map embedText
      some (g.1,
        { index := IndexFlatL2.add ⟨(tool_embeddings.headD []).length, []⟩ tool_embeddings,
          functions := g.2.tools,
          embeddings := tool_embeddings }))

/-- select_tool of hierarchical_selection.ipynb: tool_info = tool_indices[group_name]
raises KeyError when the group is absent (in particular for every group that had no
tools, since those were never inserted); otherwise the query is embedded (recorded in
the first component), the per-group index searched through the wrapper (a top_k ≤ 0
raises there), and on success positions are translated through the guarded
comprehension [functions[idx] for idx in I[0] if idx < len(functions)].
The guard lets the faiss padding id -1 through, which Python negative indexing resolves to
the last member function. -/
def select_tool_h (toolIndices : List (String × ToolIdxInfo)) (embed : String → QVec)
    (query : String) (group_name : String) (top_k : ℤ) :
    List String × Except PyExc (List ToolFn) :=
  match toolIndices.lookup group_name with
  | Option.none => ([], Except.error (PyExc.keyError group_name))
  | some tool_info =>
      let query_embedding := embed query
      ([query],
        match tool_info.index.searchPy query_embedding top_k with
        | Except.error e => Except.error e
        | Except.ok rows => pyGuardIndexE tool_info.functions (rows.map Prod.fst))

theorem pyIndex_mem {α : Type} (l : List α) (i : ℤ) (a : α)
    (h : pyIndex l i = Except.ok a) : a ∈ l := by
  rw [pyIndex] at h
  split at h
  · rcases hg : l.get? i.toNat with _ | b
    · rw [hg] at h; exact absurd h (by simp)
    · rw [hg] at h
      have : a = b := by cases h; rfl
      rw [this]
      exact List.get?_mem hg
  · split at h
    · rcases hg : l.get? (l.length - (-i).toNat) with _ | b
      · rw [hg] at h; exact absurd h (by simp)
      · rw [hg] at h
        have : a = b := by cases h; rfl
        rw [this]
        exact List.get?_mem hg
    · exact absurd h (by simp)

theorem pyGuardIndexE_ok_mem {α : Type} (l : List α) (ids : List ℤ) (res : List α)
    (h : pyGuardIndexE l ids = Except.ok res) : ∀ a ∈ res, a ∈ l := by
  induction ids generalizing res with
  | nil =>
      rw [pyGuardIndexE] at h
      cases h
      intro a ha
      exact absurd ha (List.not_mem_nil a)
  | cons i ids ih =>
      rw [pyGuardIndexE] at h
      split at h
      · rcases hx : pyIndex l i with e | b
        · rw [hx] at h; exact absurd h (by simp)
        · rw [hx] at h
          rcases hr : pyGuardIndexE l ids with e | bs
          · rw [hr] at h; exact absurd h (by simp)
          · rw [hr] at h
            have hres : res = b :: bs := by cases h; rfl
            intro a ha
            rw [hres] at ha
            rcases List.mem_cons.mp ha with rfl | ha2
            · exact pyIndex_mem l i a hx
            · exact ih bs hr a ha2
      · exact ih res h

theorem pyIndex_ok_of_lt {α : Type} (l : List α) (i : ℤ) (h0 : 0 ≤ i)
    (hlt : i < (l.length : ℤ)) : ∃ a, pyIndex l i = Except.ok a := by
  have hnat : i.toNat < l.length := by omega
  rcases List.get?_eq_get hnat with hg
  refine ⟨l.get ⟨i.toNat, hnat⟩, ?_⟩
  rw [pyIndex, if_pos h0, hg]

theorem pyIndex_ok_neg_one {α : Type} (l : List α) (hne : l ≠ []) :
    ∃ a, pyIndex l (-1) = Except.ok a := by
  have hlen : 0 < l.length := List.length_pos.mpr hne
  have hlt : l.length - 1 < l.length := by omega
  refine ⟨l.get ⟨l.length - 1, hlt⟩, ?_⟩
  rw [pyIndex, if_neg (by norm_num)]
  have h1 : ((-(-1 : ℤ))).toNat = 1 := by norm_num
  rw [h1, if_pos (by omega), List.get?_eq_get hlt]

theorem pyGuardIndexE_total {α : Type} (l : List α) (ids : List ℤ) (hne : l ≠ [])
    (hids : ∀ i ∈ ids, i = -1 ∨ (0 ≤ i ∧ i < (l.length : ℤ))) :
    ∃ res, pyGuardIndexE l ids = Except.ok res := by
  induction ids with
  | nil => exact ⟨[], rfl⟩
  | cons i ids ih =>
      have hlen : 0 < l.length := List.length_pos.mpr hne
      rcases ih (fun j hj => hids j (List.mem_cons_of_mem i hj)) with ⟨res, hres⟩
      have hguard : i < (l.length : ℤ) := by
        rcases hids i (List.mem_cons_self i ids) with h | ⟨_, h⟩
        · omega
        · exact h
      have hok : ∃ a, pyIndex l i = Except.ok a := by
        rcases hids i (List.mem_cons_self i ids) with h | ⟨h0, hlt⟩
        · rw [h]; exact pyIndex_ok_neg_one l hne
        · exact pyIndex_ok_of_lt l i h0 hlt
      rcases hok with ⟨a, ha⟩
      refine ⟨a :: res, ?_⟩
      rw [pyGuardIndexE, if_pos hguard, ha, hres]

theorem lookup_mem {β : Type} (l : List (String × β)) (k : String) (v : β)
    (h : l.lookup k = some v) : (k, v) ∈ l := by
  induction l with
  | nil => exact absurd h (by simp [List.lookup])
  | cons p l ih =>
      rw [List.lookup] at h
      rcases hb : (k == p.1) with _ | _
      · rw [hb] at h
        exact List.mem_cons_of_mem p (ih h)
      · rw [hb] at h
        have hk : k = p.1 := by exact eq_of_beq hb
        have hv : v = p.2 := by cases h; rfl
        rw [hk, hv]
        exact List.mem_cons_self p l

theorem buildToolIndices_mem (embedText : String → QVec)
    (groups : List (String × GroupInfo)) (g : String) (info : ToolIdxInfo)
    (h : (g, info) ∈ buildToolIndices embedText groups) :
    ∃ gi, (g, gi) ∈ groups ∧ info.functions = gi.tools ∧ gi.tools ≠ [] ∧
      info.index.xb.length = gi.tools.length := by
  induction groups with
  | nil => exact absurd h (by simp [buildToolIndices])
  | cons p groups ih =>
      rw [buildToolIndices, List.filterMap_cons] at h
      by_cases hempty : ((p.2.tools).map toolDescription).isEmpty
      · rw [if_pos hempty] at h
        rcases ih h with ⟨gi, hmem, hfun, hne, hlen⟩
        exact ⟨gi, List.mem_cons_of_mem p hmem, hfun, hne, hlen⟩
      · rw [if_neg hempty] at h
        rcases List.mem_cons.mp h with heq | hmem
        · have hg : g = p.1 := congrArg Prod.fst heq
          have hinfo := congrArg Prod.snd heq
          simp only at hinfo
          refine ⟨p.2, ?_, ?_, ?_, ?_⟩
          · rw [hg]; exact List.mem_cons_self p groups
          · rw [hinfo]
          · intro hnil
            rw [hnil] at hempty
            exact hempty (by simp)
          · rw [hinfo]
            simp [IndexFlatL2.add]
        · rcases ih hmem with ⟨gi, hmem2, hfun, hne, hlen⟩
          exact ⟨gi, List.mem_cons_of_mem p hmem2, hfun, hne, hlen⟩

theorem buildToolIndices_lookup_none_of_not_mem (embedText : String → QVec)
    (groups : List (String × GroupInfo)) (g : String)
    (h : g ∉ groups.map Prod.fst) :
    (buildToolIndices embedText groups).lookup g = Option.none := by
  induction groups with
  | nil => rfl
  | cons p groups ih =>
      have hne : g ≠ p.1 := fun he => h (by rw [he]; exact List.mem_map_of_mem Prod.fst (List.mem_cons_self p groups))
      have htl : g ∉ groups.map Prod.fst := fun hm => h (List.mem_cons_of_mem _ hm)
      rw [buildToolIndices, List.filterMap_cons]
      by_cases hempty : ((p.2.tools).map toolDescription).isEmpty
      · rw [if_pos hempty]
        exact ih htl
      · rw [if_neg hempty, List.lookup]
        have hb : (g == p.1) = false := beq_false_of_ne hne
        rw [hb]
        exact ih htl

theorem buildToolIndices_lookup_none_of_empty (embedText : String → QVec)
    (groups : List (String × GroupInfo)) (g : String) (gi : GroupInfo)
    (hnodup : (groups.map Prod.fst).Nodup) (hmem : (g, gi) ∈ groups)
    (hempty : gi.tools = []) :
    (buildToolIndices embedText groups).lookup g = Option.none := by
  induction groups with
  | nil => exact absurd hmem (List.not_mem_nil _)
  | cons p groups ih =>
      rw [List.map_cons, List.nodup_cons] at hnodup
      rcases List.mem_cons.mp hmem with heq | hmem2
      · have hg : g = p.1 := congrArg Prod.fst heq
        have hgi : gi = p.2 := congrArg Prod.snd heq
        rw [buildToolIndices, List.filterMap_cons]
        have he : ((p.2.tools).map toolDescription).isEmpty = true := by
          rw [← hgi, hempty]
          rfl
        rw [if_pos he]
        refine buildToolIndices_lookup_none_of_not_mem embedText groups g ?_
        rw [hg]
        exact hnodup.1
      · have hgmem : g ∈ groups.map Prod.fst := List.mem_map_of_mem Prod.fst hmem2
        have hne : g ≠ p.1 := fun he => hnodup.1 (he ▸ hgmem)
        rw [buildToolIndices, List.filterMap_cons]
        by_cases he : ((p.2.tools).map toolDescription).isEmpty
        · rw [if_pos he]
          exact ih hnodup.2 hmem2
        · rw [if_neg he, List.lookup]
          have hb : (g == p.1) = false := beq_false_of_ne hne
          rw [hb]
          exact ih hnodup.2 hmem2

/-- The three tools of the notebooks, with the first docstring lines they carry. -/
def wolframTool : ToolFn :=
  ⟨"query_wolfram_alpha", "Query Wolfram Alpha to compute mathematical expressions."⟩

def zapierTool : ToolFn :=
  ⟨"trigger_zapier_webhook", "Trigger a Zapier webhook to execute a predefined Zap."⟩

def slackTool : ToolFn :=
  ⟨"send_slack_message", "Send a message to a specified Slack channel."⟩

/-- The tool_groups table of hierarchical_selection.ipynb after the three append
calls assigned one tool to each group. -/
def demoGroups : List (String × GroupInfo) :=
  [("Computation",
    ⟨"Tools related to mathematical computations and data analysis.", [wolframTool]⟩),
   ("Automation",
    ⟨"Tools that automate workflows and integrate different services.", [zapierTool]⟩),
   ("Communication",
    ⟨"Tools that facilitate communication and messaging.", [slackTool]⟩)]

/-- A deterministic embedding stub (the Embedder is an external collaborator). -/
def stubEmbed : String → QVec := fun _ => [1, 0]

/-- A deterministic description-embedding stub for registry builds. -/
def stubEmbedText : String → QVec := fun _ => [1, 0]

/-- The flat demo index: three stored rows standing for the three tool-description
embeddings of sementic_skill_selection.ipynb. -/
def flatDemoIndex : IndexFlatL2 := ⟨2, [[1, 0], [0, 1], [1, 1]]⟩

/-- A one-row index, used to exercise a search asking for more neighbors than the
index stores. -/
def miniIndex : IndexFlatL2 := ⟨2, [[0, 0]]⟩

/-- C3 counterexample: the claim says select with top_k = 0 fails with
InvalidArgument immediately, before any embedding call.  In the code there is no
top_k validation at all: with top_k = 0 the embedder is still called first (the
recorded embedding-call list is nonempty, refuting the before-any-embedding-call
part), and the failure that then occurs is the assert of the subsequent faiss
search call, not a typed InvalidArgument raised by select_tool (no InvalidArgument
exists anywhere in the code). -/
theorem C3_counterexample :
    (select_tool stubEmbed flatDemoIndex index_to_tool
        "Solve this equation: 2x + 3 = 7" 0).1 = ["Solve this equation: 2x + 3 = 7"] ∧
    (select_tool stubEmbed flatDemoIndex index_to_tool
        "Solve this equation: 2x + 3 = 7" 0).2 = Except.error PyExc.assertionError :=
  ⟨rfl, rfl⟩

/-- C3 as amended: neither select_tool nor select_group validates top_k and no
InvalidArgument exists anywhere; the embedder is invoked exactly once,
unconditionally, before the search, for every top_k (including zero and negative
values); for top_k ≤ 0 the subsequent faiss search call itself raises (its wrapper
asserts k > 0), so the failure comes from faiss after the embedding call, not as an
InvalidArgument before it; and for top_k ≥ 1 the flat selection succeeds with a
plain list. -/
theorem C3_amended :
    (∀ (embed : String → QVec) (ix : IndexFlatL2) (i2t : List (ℤ × String))
        (q : String) (k : ℤ), (select_tool embed ix i2t q k).1 = [q]) ∧
    (∀ (embed : String → QVec) (gix : IndexFlatL2) (gnames : List String)
        (q : String) (k : ℤ), (select_group embed gix gnames q k).1 = [q]) ∧
    (∀ (embed : String → QVec) (ix : IndexFlatL2) (i2t : List (ℤ × String))
        (q : String) (k : ℤ), k ≤ 0 →
        (select_tool embed ix i2t q k).2 = Except.error PyExc.assertionError) ∧
    (∀ (embed : String → QVec) (ix : IndexFlatL2) (i2t : List (ℤ × String))
        (q : String) (k : ℤ), 1 ≤ k →
        ∃ l, (select_tool embed ix i2t q k).2 = Except.ok l) := by
  refine ⟨fun _ _ _ _ _ => rfl, fun _ _ _ _ _ => rfl, ?_, ?_⟩
  · intro embed ix i2t q k hk
    have hnot : ¬(0 < k) := by omega
    simp [select_tool, IndexFlatL2.searchPy, hnot]
  · intro embed ix i2t q k hk
    have hpos : 0 < k := by omega
    refine ⟨((ix.search (embed q) k).filterMap (fun p => i2t.lookup p.1)), ?_⟩
    simp [select_tool, IndexFlatL2.searchPy, hpos]

theorem C3_amended_witness :
    ((0 : ℤ) ≤ 0 ∧
      (select_tool stubEmbed flatDemoIndex index_to_tool "hello" 0).2 =
        Except.error PyExc.assertionError) ∧
    ((1 : ℤ) ≤ 1 ∧
      ∃ l, (select_tool stubEmbed flatDemoIndex index_to_tool "hello" 1).2 =
        Except.ok l) :=
  ⟨⟨by decide, C3_amended.2.2.1 stubEmbed flatDemoIndex index_to_tool "hello" 0 (by decide)⟩,
    ⟨by decide, C3_amended.2.2.2 stubEmbed flatDemoIndex index_to_tool "hello" 1 (by decide)⟩⟩

/-- C4 counterexample: the claim says search(q, k) has length min(k, ntotal) with no
padding and only positions of stored entries.  Searching the one-row index with k = 2
returns two rows, the second being the faiss padding row with id -1, which is not
the position of any stored entry. -/
theorem C4_counterexample :
    miniIndex.search [0, 0] 2 = [((0 : ℤ), 0), (padId, padDist)] ∧
    (miniIndex.search [0, 0] 2).length = 2 ∧
    min (2 : ℤ).toNat miniIndex.xb.length = 1 ∧
    (padId, padDist) ∈ miniIndex.search [0, 0] 2 ∧
    padId < 0 := by
  refine ⟨by decide, by decide, by decide, by decide, by decide⟩

/-- C4 as amended: for k ≥ 1 the search result always has exactly k rows; the first
min(k, ntotal) rows are the genuine neighbors -- sorted by non-decreasing squared L2
distance, with pairwise-distinct in-range positions each mapping back to a stored
entry and its true distance -- and when the index holds fewer than k entries the
remaining rows are padding with id -1 and a sentinel distance (the flat-mode caller
filters that padding out through its index_to_tool membership guard; select_group
and the hierarchical select_tool do not). -/
theorem C4_amended (ix : IndexFlatL2) (q : QVec) (k : ℤ) (hk : 1 ≤ k) :
    ∃ A : List (ℤ × ℤ),
      ix.search q k = A ++ List.replicate (k.toNat - ix.xb.length) (padId, padDist) ∧
      A.length = min k.toNat ix.xb.length ∧
      A.Pairwise (fun a b => a.2 ≤ b.2) ∧
      (A.map Prod.fst).Nodup ∧
      ∀ p ∈ A, ∃ i : ℕ, p.1 = (i : ℤ) ∧ ∃ h : i < ix.xb.length,
        p.2 = distSq q (ix.xb.get ⟨i, h⟩) :=
  ⟨ix.searchCore q k, rfl, searchCore_length ix q k, searchCore_pairwise ix q k,
    searchCore_nodup_fst ix q k, fun p hp => searchCore_mem ix q k p hp⟩

theorem C4_amended_witness :
    (1 : ℤ) ≤ 2 ∧
    ∃ A : List (ℤ × ℤ),
      flatDemoIndex.search [1, 0] 2 =
        A ++ List.replicate ((2 : ℤ).toNat - flatDemoIndex.xb.length) (padId, padDist) ∧
      A.length = min (2 : ℤ).toNat flatDemoIndex.xb.length ∧
      A.Pairwise (fun a b => a.2 ≤ b.2) ∧
      (A.map Prod.fst).Nodup ∧
      ∀ p ∈ A, ∃ i : ℕ, p.1 = (i : ℤ) ∧ ∃ h : i < flatDemoIndex.xb.length,
        p.2 = distSq [1, 0] (flatDemoIndex.xb.get ⟨i, h⟩) :=
  ⟨by decide, C4_amended flatDemoIndex [1, 0] 2 (by decide)⟩

/-- C5: every tool returned by the hierarchical select_tool for a group name comes
from the member list of a group of that very name in the registry: the per-group
index built by buildToolIndices records exactly the member functions of that group, the
guarded comprehension only ever indexes into that list (Python negative indexing on
the faiss padding id -1 still lands inside it), so a skill can never be selected
from a group other than the one select_group picked. -/
theorem C5_hierarchical_membership (embedText embed : String → QVec)
    (groups : List (String × GroupInfo)) (query g : String) (k : ℤ)
    (res : List ToolFn) (t : ToolFn)
    (hok : (select_tool_h (buildToolIndices embedText groups) embed query g k).2 =
      Except.ok res)
    (ht : t ∈ res) :
    ∃ gi, (g, gi) ∈ groups ∧ t ∈ gi.tools := by
  rcases hlk : (buildToolIndices embedText groups).lookup g with _ | info
  · rw [select_tool_h, hlk] at hok
    exact absurd hok (by simp)
  · rw [select_tool_h, hlk] at hok
    have hok2 : (match info.index.searchPy (embed query) k with
        | Except.error e => Except.error e
        | Except.ok rows => pyGuardIndexE info.functions (rows.map Prod.fst)) =
        Except.ok res := hok
    rcases hq : info.index.searchPy (embed query) k with e | rows
    · rw [hq] at hok2
      exact absurd hok2 (by simp)
    · rw [hq] at hok2
      have hmemf : t ∈ info.functions :=
        pyGuardIndexE_ok_mem info.functions _ res hok2 t ht
      have hbuild := buildToolIndices_mem embedText groups g info
        (lookup_mem _ g info hlk)
      rcases hbuild with ⟨gi, hgi, hfun, _, _⟩
      exact ⟨gi, hgi, hfun ▸ hmemf⟩

theorem C5_hierarchical_membership_witness :
    (select_tool_h (buildToolIndices stubEmbedText demoGroups) stubEmbed
        "Solve this equation: 2x + 3 = 7" "Computation" 1).2 =
      Except.ok [wolframTool] ∧
    wolframTool ∈ [wolframTool] ∧
    ∃ gi, ("Computation", gi) ∈ demoGroups ∧ wolframTool ∈ gi.tools :=
  ⟨rfl, by decide,
    C5_hierarchical_membership stubEmbedText stubEmbed demoGroups
      "Solve this equation: 2x + 3 = 7" "Computation" 1 [wolframTool] wolframTool
      rfl (by decide)⟩

/-- A registry with a group that holds no tools, alongside a populated one. -/
def emptyGroupDemo : List (String × GroupInfo) :=
  [("Computation", ⟨"Tools related to mathematical computations.", [wolframTool]⟩),
   ("Staging", ⟨"Tools being prepared; none assigned yet.", []⟩)]

/-- C6 counterexample: the claim says selecting within a group that contains zero
skills returns an empty sequence rather than raising.  A group with no tools is
omitted from tool_indices by the build guard, so select_tool on its name raises
KeyError instead of returning the empty selection. -/
theorem C6_counterexample :
    (select_tool_h (buildToolIndices stubEmbedText emptyGroupDemo) stubEmbed
        "hello" "Staging" 1).2 = Except.error (PyExc.keyError "Staging") ∧
    (select_tool_h (buildToolIndices stubEmbedText emptyGroupDemo) stubEmbed
        "hello" "Staging" 1).2 ≠ Except.ok [] := by
  constructor
  · rfl
  · intro h
    have h2 : (Except.error (PyExc.keyError "Staging") :
        Except PyExc (List ToolFn)) = Except.ok [] := by
      rw [← h]; rfl
    exact Except.noConfusion h2

theorem filterMap_replicate_none {α β : Type} (f : α → Option β) (a : α)
    (h : f a = Option.none) (n : ℕ) :
    List.filterMap f (List.replicate n a) = [] := by
  induction n with
  | zero => rfl
  | succ n ih => rw [List.replicate_succ, List.filterMap_cons, h, ih]

/-- C6 as amended, within the top_k ≥ 1 range the faiss wrapper accepts: the flat
select_tool always returns a plain (possibly empty) list and cannot fail -- in
particular on an empty registry it returns the empty list, not an error; in
hierarchical mode a group registered with zero tools is omitted from tool_indices
at build time, so select_tool on that group name raises KeyError (for every top_k:
the lookup precedes the search) instead of returning an empty sequence, while
select_tool with top_k ≥ 1 on any group name present in tool_indices returns an
ordinary (possibly empty) list without raising.  (For top_k ≤ 0 the faiss search
call itself raises, in every mode; see C3.) -/
theorem C6_amended :
    (∀ (embedText embed : String → QVec) (groups : List (String × GroupInfo))
        (g : String) (gi : GroupInfo) (q : String) (k : ℤ),
        (groups.map Prod.fst).Nodup → (g, gi) ∈ groups → gi.tools = [] →
        (select_tool_h (buildToolIndices embedText groups) embed q g k).2 =
          Except.error (PyExc.keyError g)) ∧
    (∀ (embedText embed : String → QVec) (groups : List (String × GroupInfo))
        (g : String) (info : ToolIdxInfo) (q : String) (k : ℤ), 1 ≤ k →
        (buildToolIndices embedText groups).lookup g = some info →
        ∃ res, (select_tool_h (buildToolIndices embedText groups) embed q g k).2 =
          Except.ok res) ∧
    (∀ (embed : String → QVec) (ix : IndexFlatL2) (i2t : List (ℤ × String))
        (q : String) (k : ℤ), 1 ≤ k →
        ∃ l, (select_tool embed ix i2t q k).2 = Except.ok l) ∧
    (∀ (embed : String → QVec) (d : ℕ) (q : String) (k : ℤ), 1 ≤ k →
        (select_tool embed ⟨d, []⟩ index_to_tool q k).2 = Except.ok []) := by
  refine ⟨?_, ?_, ?_, ?_⟩
  · intro embedText embed groups g gi q k hnodup hmem hempty
    have hlk := buildToolIndices_lookup_none_of_empty embedText groups g gi
      hnodup hmem hempty
    rw [select_tool_h, hlk]
  · intro embedText embed groups g info q k hk hlk
    have hpos : 0 < k := by omega
    have hbuild := buildToolIndices_mem embedText groups g info
      (lookup_mem _ g info hlk)
    rcases hbuild with ⟨gi, _, hfun, hne, hlen⟩
    have hfne : info.functions ≠ [] := by
      rw [hfun]; exact hne
    have hids : ∀ i ∈ ((info.index.search (embed q) k).map Prod.fst),
        i = -1 ∨ (0 ≤ i ∧ i < (info.functions.length : ℤ)) := by
      intro i hi
      rcases List.mem_map.mp hi with ⟨p, hp, rfl⟩
      rcases search_ids info.index (embed q) k p hp with h | ⟨h0, hlt⟩
      · exact Or.inl h
      · right
        refine ⟨h0, ?_⟩
        have : info.functions.length = info.index.xb.length := by
          rw [hfun, ← hlen]
        rw [this]
        exact hlt
    rcases pyGuardIndexE_total info.functions _ hfne hids with ⟨res, hres⟩
    refine ⟨res, ?_⟩
    rw [select_tool_h, hlk]
    simp only [IndexFlatL2.searchPy, if_pos hpos]
    exact hres
  · intro embed ix i2t q k hk
    have hpos : 0 < k := by omega
    refine ⟨((ix.search (embed q) k).filterMap (fun p => i2t.lookup p.1)), ?_⟩
    simp [select_tool, IndexFlatL2.searchPy, hpos]
  · intro embed d q k hk
    have hpos : 0 < k := by omega
    have hcore : (IndexFlatL2.mk d []).searchCore (embed q) k = [] := by
      simp [IndexFlatL2.searchCore]
    have hsearch : (IndexFlatL2.mk d []).search (embed q) k =
        List.replicate (k.toNat - List.length ([] : List QVec)) (padId, padDist) := by
      rw [IndexFlatL2.search, hcore]
      rfl
    simp only [select_tool, IndexFlatL2.searchPy, if_pos hpos, hsearch]
    rw [filterMap_replicate_none (fun p : ℤ × ℤ => index_to_tool.lookup p.1)
      (padId, padDist) (by decide)]

theorem C6_amended_witness :
    ((emptyGroupDemo.map Prod.fst).Nodup ∧
      ("Staging", (⟨"Tools being prepared; none assigned yet.", []⟩ : GroupInfo)) ∈
        emptyGroupDemo ∧
      (select_tool_h (buildToolIndices stubEmbedText emptyGroupDemo) stubEmbed
          "hello" "Staging" 1).2 = Except.error (PyExc.keyError "Staging")) ∧
    ((1 : ℤ) ≤ 2 ∧
      (buildToolIndices stubEmbedText demoGroups).lookup "Computation" =
        some ⟨⟨2, [[1, 0]]⟩, [wolframTool], [[1, 0]]⟩ ∧
      ∃ res, (select_tool_h (buildToolIndices stubEmbedText demoGroups) stubEmbed
          "hello" "Computation" 2).2 = Except.ok res) ∧
    ((1 : ℤ) ≤ 1 ∧
      ∃ l, (select_tool stubEmbed flatDemoIndex index_to_tool "hello" 1).2 =
        Except.ok l) ∧
    ((1 : ℤ) ≤ 3 ∧
      (select_tool stubEmbed ⟨2, []⟩ index_to_tool "hello" 3).2 = Except.ok []) :=
  ⟨⟨by decide, by decide,
      C6_amended.1 stubEmbedText stubEmbed emptyGroupDemo "Staging"
        ⟨"Tools being prepared; none assigned yet.", []⟩ "hello" 1
        (by decide) (by decide) rfl⟩,
    ⟨by decide, rfl,
      C6_amended.2.1 stubEmbedText stubEmbed demoGroups "Computation"
        ⟨⟨2, [[1, 0]]⟩, [wolframTool], [[1, 0]]⟩ "hello" 2 (by decide) rfl⟩,
    ⟨by decide,
      C6_amended.2.2.1 stubEmbed flatDemoIndex index_to_tool "hello" 1 (by decide)⟩,
    ⟨by decide,
      C6_amended.2.2.2 stubEmbed 2 "hello" 3 (by decide)⟩⟩

/-- The notebook globals a flat query run can read: the flat index with its stored
rows and the position-to-name tables. -/
structure FlatEngineState where
  index : IndexFlatL2
  indexToTool : List (ℤ × String)
  toolNames : List String
deriving DecidableEq

/-- The notebook globals a hierarchical query run can read: the group index, the
parallel group-name list, and tool_indices with every per-group index. -/
structure HierEngineState where
  groupIndex : IndexFlatL2
  groupNames : List String
  toolIndices : List (String × ToolIdxInfo)
deriving DecidableEq

/-- Flat select_tool with the notebook globals threaded as explicit state: the
returned state is whatever the body left them as (the body only reads them -- the
faiss search mutates nothing, and the in-place normalize_L2 touches only the
request-local query buffer). -/
def select_tool_st (embed : String → QVec) (st : FlatEngineState) (query : String)
    (top_k : ℤ) : FlatEngineState × (List String × Except PyExc (List String)) :=
  (st, select_tool embed st.index st.indexToTool query top_k)

/-- select_group with the hierarchical globals threaded as explicit state. -/
def select_group_st (embed : String → QVec) (st : HierEngineState) (query : String)
    (top_k : ℤ) : HierEngineState × (List String × Except PyExc (List String)) :=
  (st, select_group embed st.groupIndex st.groupNames query top_k)

/-- Hierarchical select_tool with the globals threaded as explicit state. -/
def select_tool_h_st (embed : String → QVec) (st : HierEngineState) (query : String)
    (group_name : String) (top_k : ℤ) :
    HierEngineState × (List String × Except PyExc (List ToolFn)) :=
  (st, select_tool_h st.toolIndices embed query group_name top_k)

/-- C7: a query never mutates the registry or any index.  Each select operation,
with every piece of global state it can reach threaded explicitly, returns that
state unchanged: the stored rows, the position-to-name tables, the group partition
and every per-group index are identical before and after any select_tool,
select_group or hierarchical select_tool call. -/
theorem C7_query_leaves_state_unchanged (embed : String → QVec)
    (st : FlatEngineState) (hst : HierEngineState) (query g : String) (k : ℤ) :
    (select_tool_st embed st query k).1 = st ∧
    (select_group_st embed hst query k).1 = hst ∧
    (select_tool_h_st embed hst query g k).1 = hst :=
  ⟨rfl, rfl, rfl⟩

/-- Python/JSON values at the granularity the notebooks handle them: strings,
numbers, one-level objects with string values (the only object shape the code
constructs, e.g. the default zapier payload), and Python None (what dict.get
returns for a missing key with no default). -/
inductive PyVal where
  | str (s : String) : PyVal
  | num (n : ℤ) : PyVal
  | dict (fields : List (String × String)) : PyVal
  | none : PyVal
deriving DecidableEq

/-- dict.get(key): the value stored under the key, or None when absent. -/
def pyDictGet (d : List (String × PyVal)) (key : String) : PyVal :=
  (d.lookup key).getD PyVal.none

/-- dict.get(key, default): the value stored under the key, or the given default. -/
def pyDictGetD (d : List (String × PyVal)) (key : String) (dflt : PyVal) : PyVal :=
  (d.lookup key).getD dflt

/-- Content of a language-model reply at the granularity json.loads distinguishes:
either text that parses as a JSON object, or text that does not parse. -/
inductive LLMContent where
  | jsonObj (fields : List (String × PyVal)) : LLMContent
  | nonJson (text : String) : LLMContent
deriving DecidableEq

/-- Model of json.loads on the reply content: a JSON object parses to its fields,
anything else raises json.JSONDecodeError. -/
def json_loads : LLMContent → Except PyExc (List (String × PyVal))
  | LLMContent.jsonObj fields => Except.ok fields
  | LLMContent.nonJson _ => Except.error PyExc.jsonDecodeError

/-- The parameter names of each tool, read off the @tool function signatures:
query_wolfram_alpha(expression), trigger_zapier_webhook(zap_id, payload),
send_slack_message(channel, message). -/
def parameter_schema (tool_name : String) : List String :=
  if tool_name = "query_wolfram_alpha" then ["expression"]
  else if tool_name = "trigger_zapier_webhook" then ["zap_id", "payload"]
  else if tool_name = "send_slack_message" then ["channel", "message"]
  else []

/-- determine_parameters of sementic_skill_selection.ipynb, with the language model
abstracted to the content of its reply.  json.loads is called with no surrounding
try/except, so a non-JSON reply propagates JSONDecodeError to the caller.  The
assembly then reads only the schema keys of the named tool (anything else in the
reply is dropped): the wolfram expression via response_data.get("expression") --
None when absent -- and the zapier and slack parameters via two-argument get with
the literal defaults of the notebook ("123456", a payload carrying the query,
"#general", and the query itself as message). -/
def determine_parameters (query : String) (tool_name : String)
    (reply : LLMContent) : Except PyExc (List (String × PyVal)) :=
  match json_loads reply with
  | Except.error e => Except.error e
  | Except.ok response_data =>
      Except.ok
        (if tool_name = "query_wolfram_alpha" then
          [("expression", pyDictGet response_data "expression")]
        else if tool_name = "trigger_zapier_webhook" then
          [("zap_id", pyDictGetD response_data "zap_id" (PyVal.str "123456")),
           ("payload", pyDictGetD response_data "payload"
              (PyVal.dict [("data", query)]))]
        else if tool_name = "send_slack_message" then
          [("channel", pyDictGetD response_data "channel" (PyVal.str "#general")),
           ("message", pyDictGetD response_data "message" (PyVal.str query))]
        else [])

/-- Exception classes caught by "except ValueError" in the drivers: ValueError
itself and json.JSONDecodeError, which Python defines as a ValueError subclass. -/
def isValueErrorClass : PyExc → Bool
  | PyExc.valueError _ => true
  | PyExc.jsonDecodeError => true
  | _ => false

/-- The message text attached to an exception. -/
def pyExcMessage : PyExc → String
  | PyExc.valueError m => m
  | PyExc.keyError k => k
  | PyExc.jsonDecodeError => "Expecting value: line 1 column 1 (char 0)"
  | PyExc.indexError => "list index out of range"
  | PyExc.assertionError => "assert k > 0"

/-- The driver cell of sementic_skill_selection.ipynb: select the top tool; if one
was selected, bind its arguments with determine_parameters -- called outside any
try block, so a binding exception propagates and the run crashes -- then look the
tool up in globals() and invoke it inside try/except ValueError, printing either
the result line or the error line.  The value is the list of printed lines, or the
uncaught exception.  Selection runs outside any try block too, so an exception
from it would also propagate (none occurs here: the call passes top_k = 1). -/
def semantic_dispatch (embed : String → QVec) (ix : IndexFlatL2)
    (i2t : List (ℤ × String)) (inv : String → List (String × PyVal) → Except PyExc String)
    (reply : LLMContent) (user_query : String) : Except PyExc (List String) :=
  match (select_tool embed ix i2t user_query 1).2 with
  | Except.error e => Except.error e
  | Except.ok selected_tools =>
      match selected_tools.head? with
      | Option.none => Except.ok ["No tool was selected."]
      | some tool_name =>
          match determine_parameters user_query tool_name reply with
          | Except.error e => Except.error e
          | Except.ok args =>
              match inv tool_name args with
              | Except.ok r => Except.ok ["Tool " ++ tool_name ++ " Result: " ++ r]
              | Except.error e =>
                  if isValueErrorClass e then
                    Except.ok ["Error invoking tool " ++ tool_name ++ ": " ++
                      pyExcMessage e]
                  else Except.error e

/-- A tool invocation stub for concrete runs (the skills are external HTTP calls). -/
def stubInvoke : String → List (String × PyVal) → Except PyExc String :=
  fun _ _ => Except.ok "x = 2"

/-- C2: the spec asserts that an unparseable model reply surfaces as the typed error
MalformedModelResponse and the dispatcher proceeds to compose an answer.  In the
code no such type exists: json.loads raises JSONDecodeError inside
determine_parameters, which has no handler, the driver calls determine_parameters
outside its try block, and the run crashes -- exactly as the saved traceback of
cell 41 of sementic_skill_selection.ipynb shows.  Evaluated at the notebook query
with a non-JSON reply: the binder and the whole dispatch both end in the propagated
JSONDecodeError, and no transcript is produced. -/
theorem C2_malformed_reply_crashes_dispatch :
    determine_parameters "Solve this equation: 2x + 3 = 7" "query_wolfram_alpha"
        (LLMContent.nonJson "Sure. Here are the parameters you should use.") =
      Except.error PyExc.jsonDecodeError ∧
    semantic_dispatch stubEmbed flatDemoIndex index_to_tool stubInvoke
        (LLMContent.nonJson "Sure. Here are the parameters you should use.")
        "Solve this equation: 2x + 3 = 7" =
      Except.error PyExc.jsonDecodeError :=
  ⟨rfl, rfl⟩

/-- C9 counterexample: the claim says a missing required key with no default (the
wolfram expression) causes bind to fail with MissingRequiredParameter rather than
returning a mapping.  In the code dict.get simply yields None: binding the wolfram
tool against an empty JSON object succeeds and returns the mapping
expression -> None (no MissingRequiredParameter exists anywhere in the code). -/
theorem C9_counterexample :
    determine_parameters "what is 2 + 2" "query_wolfram_alpha"
        (LLMContent.jsonObj []) =
      Except.ok [("expression", PyVal.none)] :=
  rfl

/-- C9 as amended: for every well-formed reply the returned mapping has exactly the
keys of the parameter schema of the selected tool (extra reply keys are dropped); a
missing zap_id, payload, channel or message is filled with its literal default
("123456", a payload carrying the query, "#general", the query itself); and a
missing wolfram expression does not fail -- the mapping is returned with the
expression bound to None. -/
theorem C9_amended :
    (∀ (q tn : String) (rd : List (String × PyVal)),
        ∃ params, determine_parameters q tn (LLMContent.jsonObj rd) =
            Except.ok params ∧
          params.map Prod.fst = parameter_schema tn) ∧
    (∀ (q : String) (rd : List (String × PyVal)),
        rd.lookup "zap_id" = Option.none →
        ∃ params, determine_parameters q "trigger_zapier_webhook"
            (LLMContent.jsonObj rd) = Except.ok params ∧
          params.lookup "zap_id" = some (PyVal.str "123456")) ∧
    (∀ (q : String) (rd : List (String × PyVal)),
        rd.lookup "payload" = Option.none →
        ∃ params, determine_parameters q "trigger_zapier_webhook"
            (LLMContent.jsonObj rd) = Except.ok params ∧
          params.lookup "payload" = some (PyVal.dict [("data", q)])) ∧
    (∀ (q : String) (rd : List (String × PyVal)),
        rd.lookup "channel" = Option.none →
        ∃ params, determine_parameters q "send_slack_message"
            (LLMContent.jsonObj rd) = Except.ok params ∧
          params.lookup "channel" = some (PyVal.str "#general")) ∧
    (∀ (q : String) (rd : List (String × PyVal)),
        rd.lookup "message" = Option.none →
        ∃ params, determine_parameters q "send_slack_message"
            (LLMContent.jsonObj rd) = Except.ok params ∧
          params.lookup "message" = some (PyVal.str q)) ∧
    (∀ (q : String) (rd : List (String × PyVal)),
        rd.lookup "expression" = Option.none →
        determine_parameters q "query_wolfram_alpha" (LLMContent.jsonObj rd) =
          Except.ok [("expression", PyVal.none)]) := by
  refine ⟨?_, ?_, ?_, ?_, ?_, ?_⟩
  · intro q tn rd
    refine ⟨_, rfl, ?_⟩
    by_cases h1 : tn = "query_wolfram_alpha"
    · simp [h1, parameter_schema]
    · by_cases h2 : tn = "trigger_zapier_webhook"
      · simp [h1, h2, parameter_schema]
      · by_cases h3 : tn = "send_slack_message"
        · simp [h1, h2, h3, parameter_schema]
        · simp [h1, h2, h3, parameter_schema]
  · intro q rd h
    refine ⟨_, rfl, ?_⟩
    simp [determine_parameters, json_loads, pyDictGetD, h, List.lookup]
  · intro q rd h
    refine ⟨_, rfl, ?_⟩
    simp [determine_parameters, json_loads, pyDictGetD, h, List.lookup]
  · intro q rd h
    refine ⟨_, rfl, ?_⟩
    simp [determine_parameters, json_loads, pyDictGetD, h, List.lookup]
  · intro q rd h
    refine ⟨_, rfl, ?_⟩
    simp [determine_parameters, json_loads, pyDictGetD, h, List.lookup]
  · intro q rd h
    simp [determine_parameters, json_loads, pyDictGet, h]

theorem C9_amended_witness :
    (∃ params, determine_parameters "ping the oncall" "send_slack_message"
        (LLMContent.jsonObj [("channel", PyVal.str "#oncall"),
          ("mood", PyVal.str "urgent")]) = Except.ok params ∧
      params.map Prod.fst = parameter_schema "send_slack_message") ∧
    ([(("channel" : String), PyVal.str "#oncall"),
        ("mood", PyVal.str "urgent")].lookup "message" = Option.none ∧
      ∃ params, determine_parameters "ping the oncall" "send_slack_message"
          (LLMContent.jsonObj [("channel", PyVal.str "#oncall"),
            ("mood", PyVal.str "urgent")]) = Except.ok params ∧
        params.lookup "message" = some (PyVal.str "ping the oncall")) :=
  ⟨C9_amended.1 "ping the oncall" "send_slack_message" _,
    ⟨by decide,
      C9_amended.2.2.2.2.1 "ping the oncall"
        [("channel", PyVal.str "#oncall"), ("mood", PyVal.str "urgent")]
        (by decide)⟩⟩

/-- A tool call emitted by the model: its name and raw argument mapping. -/
structure ToolCall where
  name : String
  args : List (String × PyVal)
deriving DecidableEq

/-- A tool message appended to the transcript after an invocation. -/
structure ToolMsg where
  name : String
  content : String
deriving DecidableEq

/-- The dispatch loop of the model-native notebook (src/unnamed/part_000):
for tool_call in ai_msg.tool_calls: tool_msg = get_stock_price.invoke(tool_call);
messages.append(tool_msg).  No try/except surrounds the invocation, so the first
raising call aborts the loop and its exception propagates; the messages appended so
far are lost with it. -/
def tool_call_loop (inv : ToolCall → Except PyExc ToolMsg) :
    List ToolCall → List ToolMsg → Except PyExc (List ToolMsg)
  | [], messages => Except.ok messages
  | c :: rest, messages =>
      match inv c with
      | Except.error e => Except.error e
      | Except.ok m => tool_call_loop inv rest (messages ++ [m])

/-- The calls the loop actually hands to invoke before terminating: all of them
when every invocation succeeds, or everything up to and including the first raising
call. -/
def invoked_calls (inv : ToolCall → Except PyExc ToolMsg) :
    List ToolCall → List ToolCall
  | [] => []
  | c :: rest =>
      match inv c with
      | Except.error _ => [c]
      | Except.ok _ => c :: invoked_calls inv rest

/-- The part_000 pipeline: run the dispatch loop over the tool calls, then hand the
accumulated transcript to the final llm_with_tools.invoke(messages) composition,
modelled by the compose parameter.  Composition is reached only when every
invocation succeeded. -/
def part000_pipeline (inv : ToolCall → Except PyExc ToolMsg)
    (compose : List ToolMsg → String) (calls : List ToolCall)
    (messages : List ToolMsg) : Except PyExc String :=
  match tool_call_loop inv calls messages with
  | Except.error e => Except.error e
  | Except.ok msgs => Except.ok (compose msgs)

/-- Two stock-price tool calls and an invocation stub where the first ticker fails
(the quote endpoint answered with a non-200 status, so get_stock_price raises
ValueError) and the second would succeed. -/
def stockCall1 : ToolCall := ⟨"get_stock_price", [("ticker", PyVal.str "AAPL")]⟩

def stockCall2 : ToolCall := ⟨"get_stock_price", [("ticker", PyVal.str "MSFT")]⟩

def stubStockInvoke : ToolCall → Except PyExc ToolMsg := fun c =>
  if c.args.lookup "ticker" = some (PyVal.str "AAPL") then
    Except.error (PyExc.valueError "Failed to fetch stock price for AAPL")
  else Except.ok ⟨c.name, "430.25"⟩

/-- C8 counterexample: the claim says one failed invocation never aborts the
remaining attempts and the annotated transcript still reaches composition.  In the
part_000 dispatch loop a first failing invocation propagates: the second call is
never attempted and the pipeline ends in the exception instead of a composed
answer. -/
theorem C8_counterexample :
    part000_pipeline stubStockInvoke (fun _ => "final answer")
        [stockCall1, stockCall2] [] =
      Except.error (PyExc.valueError "Failed to fetch stock price for AAPL") ∧
    invoked_calls stubStockInvoke [stockCall1, stockCall2] = [stockCall1] :=
  ⟨rfl, rfl⟩

/-- C8 as amended: in the model-native dispatch loop of part_000 an invocation
failure propagates -- it aborts the loop at the failing call, the remaining calls
are never attempted, and composition is never reached; only the semantic-selection
driver confines a failure, and only for its single selected skill: an invocation
raising ValueError there is caught and recorded as an error line, and the run still
ends normally. -/
theorem C8_amended :
    (∀ (inv : ToolCall → Except PyExc ToolMsg) (compose : List ToolMsg → String)
        (c1 : ToolCall) (rest : List ToolCall) (msgs : List ToolMsg) (e : PyExc),
        inv c1 = Except.error e →
        tool_call_loop inv (c1 :: rest) msgs = Except.error e ∧
        invoked_calls inv (c1 :: rest) = [c1] ∧
        part000_pipeline inv compose (c1 :: rest) msgs = Except.error e) ∧
    (∀ (embed : String → QVec) (ix : IndexFlatL2) (i2t : List (ℤ × String))
        (inv : String → List (String × PyVal) → Except PyExc String)
        (reply : LLMContent) (uq tn : String) (sel : List String)
        (args : List (String × PyVal)) (m : String),
        (select_tool embed ix i2t uq 1).2 = Except.ok sel →
        sel.head? = some tn →
        determine_parameters uq tn reply = Except.ok args →
        inv tn args = Except.error (PyExc.valueError m) →
        semantic_dispatch embed ix i2t inv reply uq =
          Except.ok ["Error invoking tool " ++ tn ++ ": " ++ m]) := by
  constructor
  · intro inv compose c1 rest msgs e he
    refine ⟨?_, ?_, ?_⟩
    · rw [tool_call_loop, he]
    · rw [invoked_calls, he]
    · rw [part000_pipeline, tool_call_loop, he]
  · intro embed ix i2t inv reply uq tn sel args m hsel hhead hdet hinv
    rw [semantic_dispatch, hsel]
    simp only [hhead, hdet, hinv, isValueErrorClass, if_pos, pyExcMessage]

theorem C8_amended_witness :
    (stubStockInvoke stockCall1 =
        Except.error (PyExc.valueError "Failed to fetch stock price for AAPL") ∧
      tool_call_loop stubStockInvoke [stockCall1, stockCall2] [] =
        Except.error (PyExc.valueError "Failed to fetch stock price for AAPL") ∧
      invoked_calls stubStockInvoke [stockCall1, stockCall2] = [stockCall1] ∧
      part000_pipeline stubStockInvoke (fun _ => "composed") [stockCall1, stockCall2]
          [] = Except.error (PyExc.valueError "Failed to fetch stock price for AAPL")) ∧
    semantic_dispatch stubEmbed flatDemoIndex index_to_tool
        (fun _ _ => Except.error (PyExc.valueError "Wolfram Alpha API Error: 501"))
        (LLMContent.jsonObj [("expression", PyVal.str "2x + 3 = 7")])
        "Solve this equation: 2x + 3 = 7" =
      Except.ok ["Error invoking tool query_wolfram_alpha: Wolfram Alpha API Error: 501"] := by
  constructor
  · have h := C8_amended.1 stubStockInvoke (fun _ => "composed") stockCall1
      [stockCall2] [] (PyExc.valueError "Failed to fetch stock price for AAPL")
      rfl
    exact ⟨rfl, h.1, h.2.1, h.2.2⟩
  · exact C8_amended.2 stubEmbed flatDemoIndex index_to_tool
      (fun _ _ => Except.error (PyExc.valueError "Wolfram Alpha API Error: 501"))
      (LLMContent.jsonObj [("expression", PyVal.str "2x + 3 = 7")])
      "Solve this equation: 2x + 3 = 7" "query_wolfram_alpha"
      ["query_wolfram_alpha"] [("expression", PyVal.str "2x + 3 = 7")]
      "Wolfram Alpha API Error: 501" rfl rfl rfl rfl

/-- The three calculator tools of calc_skill.ipynb. -/
inductive CalcTool where
  | add : CalcTool
  | multiply : CalcTool
  | exponentiate : CalcTool
deriving DecidableEq

/-- The dispatch table literal of calc_skill.ipynb:
{"add": add, "multiply": multiply, "exponentiate": exponentiate}. -/
def calc_table : List (String × CalcTool) :=
  [("add", CalcTool.add), ("multiply", CalcTool.multiply),
   ("exponentiate", CalcTool.exponentiate)]

/-- Python str.lower at the granularity the dispatch needs: lowercase every
character. -/
def pyLower (s : String) : String := String.mk (s.data.map Char.toLower)

/-- Tool resolution of calc_skill.ipynb:
selected_tool = {"add": add, "multiply": multiply, "exponentiate": exponentiate}[tool_call["name"].lower()].
A name whose lowercasing is not a key of the table raises KeyError. -/
def resolve_calc_tool (name : String) : Except PyExc CalcTool :=
  match calc_table.lookup (pyLower name) with
  | some t => Except.ok t
  | Option.none => Except.error (PyExc.keyError (pyLower name))

/-- The calc dispatch loop: for each tool call resolve the executable through the
lowercased-name table (an unhandled KeyError aborts the loop with no invocation for
that call), invoke it (the invocation itself -- selected_tool.invoke(tool_call) --
is the inv parameter; its arithmetic body is outside this claim), and append the
tool message. -/
def calc_dispatch_loop (inv : CalcTool → ToolCall → ToolMsg) :
    List ToolCall → List ToolMsg → Except PyExc (List ToolMsg)
  | [], messages => Except.ok messages
  | c :: rest, messages =>
      match resolve_calc_tool c.name with
      | Except.error e => Except.error e
      | Except.ok t => calc_dispatch_loop inv rest (messages ++ [inv t c])

/-- The successfully resolved invocations the loop performs before terminating. -/
def calc_invocations : List ToolCall → List (CalcTool × ToolCall)
  | [] => []
  | c :: rest =>
      match resolve_calc_tool c.name with
      | Except.error _ => []
      | Except.ok t => (t, c) :: calc_invocations rest

/-- C10: the executable for a tool call is resolved by lowercasing the call name and
looking it up in the fixed table whose keys are exactly add, multiply and
exponentiate; a call whose lowercased name is not one of those three makes the
lookup raise an unhandled KeyError -- the dispatch loop aborts with no tool invoked
for that call -- while a name differing from a registered one only in letter case
resolves to that registered tool. -/
theorem C10_lowercase_table_dispatch :
    (calc_table.map Prod.fst = ["add", "multiply", "exponentiate"]) ∧
    (∀ name : String, pyLower name ∉ (["add", "multiply", "exponentiate"] : List String) →
      resolve_calc_tool name = Except.error (PyExc.keyError (pyLower name)) ∧
      ∀ (inv : CalcTool → ToolCall → ToolMsg) (args : List (String × PyVal))
          (rest : List ToolCall) (msgs : List ToolMsg),
        calc_dispatch_loop inv (⟨name, args⟩ :: rest) msgs =
          Except.error (PyExc.keyError (pyLower name)) ∧
        calc_invocations (⟨name, args⟩ :: rest) = []) ∧
    (∀ name : String, pyLower name = "add" →
      resolve_calc_tool name = Except.ok CalcTool.add) ∧
    (∀ name : String, pyLower name = "multiply" →
      resolve_calc_tool name = Except.ok CalcTool.multiply) ∧
    (∀ name : String, pyLower name = "exponentiate" →
      resolve_calc_tool name = Except.ok CalcTool.exponentiate) := by
  have hmiss : ∀ name : String,
      pyLower name ∉ (["add", "multiply", "exponentiate"] : List String) →
      calc_table.lookup (pyLower name) = Option.none := by
    intro name h
    have h1 : pyLower name ≠ "add" := fun he => h (by rw [he]; decide)
    have h2 : pyLower name ≠ "multiply" := fun he => h (by rw [he]; decide)
    have h3 : pyLower name ≠ "exponentiate" := fun he => h (by rw [he]; decide)
    simp [calc_table, List.lookup, beq_false_of_ne h1, beq_false_of_ne h2,
      beq_false_of_ne h3]
  refine ⟨by decide, ?_, ?_, ?_, ?_⟩
  · intro name h
    have hres : resolve_calc_tool name = Except.error (PyExc.keyError (pyLower name)) := by
      rw [resolve_calc_tool, hmiss name h]
    refine ⟨hres, ?_⟩
    intro inv args rest msgs
    constructor
    · rw [calc_dispatch_loop]
      rw [show (⟨name, args⟩ : ToolCall).name = name from rfl, hres]
    · rw [calc_invocations]
      rw [show (⟨name, args⟩ : ToolCall).name = name from rfl, hres]
  · intro name h
    rw [resolve_calc_tool, h]
    rfl
  · intro name h
    rw [resolve_calc_tool, h]
    rfl
  · intro name h
    rw [resolve_calc_tool, h]
    rfl

theorem C10_lowercase_table_dispatch_witness :
    (pyLower "Divide" ∉ (["add", "multiply", "exponentiate"] : List String) ∧
      resolve_calc_tool "Divide" = Except.error (PyExc.keyError "divide") ∧
      calc_invocations [⟨"Divide", []⟩] = []) ∧
    (pyLower "Add" = "add" ∧ resolve_calc_tool "Add" = Except.ok CalcTool.add) ∧
    (pyLower "MULTIPLY" = "multiply" ∧
      resolve_calc_tool "MULTIPLY" = Except.ok CalcTool.multiply) ∧
    (pyLower "Exponentiate" = "exponentiate" ∧
      resolve_calc_tool "Exponentiate" = Except.ok CalcTool.exponentiate) := by
  have hmiss := (C10_lowercase_table_dispatch.2.1 "Divide" (by decide))
  refine ⟨⟨by decide, ?_, ?_⟩, ⟨by decide, ?_⟩, ⟨by decide, ?_⟩, ⟨by decide, ?_⟩⟩
  · have := hmiss.1
    rw [this]
    rfl
  · exact (hmiss.2 (fun _ c => ⟨c.name, ""⟩) [] [] []).2
  · exact C10_lowercase_table_dispatch.2.2.1 "Add" (by decide)
  · exact C10_lowercase_table_dispatch.2.2.2.1 "MULTIPLY" (by decide)
  · exact C10_lowercase_table_dispatch.2.2.2.2 "Exponentiate" (by decide)
